import Mathlib

/-!
Shallow embedding of `pydtm.py` (Python (Euro)DOCSIS Traffic Meter).

Strings are modelled as `List Char`; Python integers as `ℤ`/`ℕ`; fallible
Python code (uncaught exceptions, `exit(1)`) as `Option`; wall-clock
quantities as `ℚ`.  Each definition follows the source function it is
named after; the only definitions taken from the spec's words instead of
the source are marked `Modelled from the spec`.
-/

namespace Pydtm

abbrev Chars := List Char

/-- DVB constant from the source header: `QAM_256 = 0x5`. -/
def QAM_256 : ℕ := 0x5

/-- DVB constant from the source header: `QAM_64 = 0x3`. -/
def QAM_64 : ℕ := 0x3

/-- DVB constant: `DTV_DELIVERY_SYSTEM = 0x11`. -/
def DTV_DELIVERY_SYSTEM : ℕ := 0x11

/-- DVB constant: `DTV_FREQUENCY = 0x3`. -/
def DTV_FREQUENCY : ℕ := 0x3

/-- DVB constant: `DTV_INNER_FEC = 0x9`. -/
def DTV_INNER_FEC : ℕ := 0x9

/-- DVB constant: `DTV_INVERSION = 0x6`. -/
def DTV_INVERSION : ℕ := 0x6

/-- DVB constant: `DTV_MODULATION = 0x4`. -/
def DTV_MODULATION : ℕ := 0x4

/-- DVB constant: `DTV_SYMBOL_RATE = 0x8`. -/
def DTV_SYMBOL_RATE : ℕ := 0x8

/-- DVB constant: `DTV_TUNE = 0x1`. -/
def DTV_TUNE : ℕ := 0x1

/-- DVB constant: `FEC_AUTO = 0x9`. -/
def FEC_AUTO : ℕ := 0x9

/-- DVB constant: `INVERSION_OFF = 0x0`. -/
def INVERSION_OFF : ℕ := 0x0

/-- DVB constant: `SYS_DVBC_ANNEX_AC = 0x1`. -/
def SYS_DVBC_ANNEX_AC : ℕ := 0x1

/-- The `Tunable` namedtuple: a frequency (MHz, a Python int) together with
the numeric DVB modulation constant. -/
structure Tunable where
  frequency : ℤ
  modulation : ℕ
deriving DecidableEq

/-- Index of the first occurrence of `sep`, as an `Option` (`none` = absent). -/
def pyFindAux (sep : Char) : Chars → Option ℕ
  | [] => none
  | c :: cs => if c = sep then some 0 else (pyFindAux sep cs).map (· + 1)

/-- Python `s.find(sep)`: the index of the first occurrence, `-1` if absent. -/
def pyFind (sep : Char) (s : Chars) : ℤ :=
  match pyFindAux sep s with
  | some i => (i : ℤ)
  | none => -1

/-- Python `s.split(sep)` for a one-character separator: splits at every
occurrence, keeping empty parts; `"".split(sep) = [""]`. -/
def pySplit (sep : Char) : Chars → List Chars
  | [] => [[]]
  | c :: cs =>
    if c = sep then [] :: pySplit sep cs
    else
      match pySplit sep cs with
      | [] => [[c]]
      | p :: ps => (c :: p) :: ps

/-- Value of a decimal digit character, `none` for a non-digit. -/
def digitVal (c : Char) : Option ℕ :=
  if '0' ≤ c ∧ c ≤ '9' then some (c.toNat - 48) else none

/-- Accumulating decimal evaluation of a digit string; `none` on the first
non-digit character. -/
def digitsValAux : Chars → ℕ → Option ℕ
  | [], acc => some acc
  | c :: cs, acc =>
    match digitVal c with
    | some d => digitsValAux cs (acc * 10 + d)
    | none => none

/-- Python `int(s)` restricted to an optional sign followed by decimal
digits (the forms produced by `str()` on an int); other strings —
including the empty string and strings that start with a non-sign
non-digit — yield `none` (a `ValueError`). -/
def pyInt (s : Chars) : Option ℤ :=
  match s with
  | [] => none
  | c :: rest =>
    if c = '-' then
      if rest = [] then none else (digitsValAux rest 0).map (fun n => -(n : ℤ))
    else if c = '+' then
      if rest = [] then none else (digitsValAux rest 0).map (fun n => (n : ℤ))
    else (digitsValAux (c :: rest) 0).map (fun n => (n : ℤ))

/-- The modulation-translation step of `frequency_list`: parse the
frequency string, then map `"256"` to `QAM_256`, `"64"` to `QAM_64`, and
abort (`exit(1)`) on anything else. -/
def parseFreqMod (f : Chars) (m : Chars) : Option Tunable :=
  match pyInt f with
  | none => none
  | some freq =>
    if m = ['2', '5', '6'] then some ⟨freq, QAM_256⟩
    else if m = ['6', '4'] then some ⟨freq, QAM_64⟩
    else none

/-- One iteration of the `frequency_list` loop: `mod` defaults to `"256"`;
the item is split at `":"` only when `item.find(":") > 0` (a split into
more than two parts is an uncaught `ValueError`, hence `none`). -/
def parseItem (item : Chars) : Option Tunable :=
  if 0 < pyFind ':' item then
    match pySplit ':' item with
    | [f, m] => parseFreqMod f m
    | _ => none
  else parseFreqMod item ['2', '5', '6']

/-- Folds `parseItem` over the comma-separated items; any aborting item
aborts the whole list, as `exit(1)` does. -/
def parseItems : List Chars → Option (List Tunable)
  | [] => some []
  | i :: is =>
    match parseItem i, parseItems is with
    | some t, some ts => some (t :: ts)
    | _, _ => none

/-- `frequency_list(frequencies)` from the source: split the spec string on
`","` and resolve each item to a `Tunable`. -/
def frequency_list (s : Chars) : Option (List Tunable) :=
  parseItems (pySplit ',' s)

/-- Decimal digit characters of a positive number, most significant
first; the first argument is recursion fuel (any bound `≥ n` works). -/
def natCharsAux : ℕ → ℕ → Chars
  | 0, _ => []
  | fuel + 1, n =>
    if n = 0 then []
    else natCharsAux fuel (n / 10) ++ [Char.ofNat (48 + n % 10)]

/-- Decimal digit string of a natural number, most significant first
(Python `str(n)` for `n ≥ 0`). -/
def natChars (n : ℕ) : Chars :=
  if n = 0 then ['0'] else natCharsAux (n + 1) n

/-- Python `str(z)` for an integer. -/
def intChars : ℤ → Chars
  | .ofNat n => natChars n
  | .negSucc m => '-' :: natChars (m + 1)

/-- Modelled from the spec: the textual channel-spec form of one resolved
pair, `"frequency:modulation"` with the modulation written `256` or `64`
(§6 configuration surface).  The source itself contains no serializer; this
definition exists only to state the §8 idempotence property. -/
def serializeItem (t : Tunable) : Chars :=
  intChars t.frequency ++ ':' :: (if t.modulation = QAM_64 then ['6', '4'] else ['2', '5', '6'])

/-- Modelled from the spec: a resolved channel list rendered back to spec
form, items joined with `","`. -/
def serializeList : List Tunable → Chars
  | [] => []
  | [t] => serializeItem t
  | t :: rest => serializeItem t ++ ',' :: serializeList rest

/-- Round-half-to-even on an exact rational, mirroring the documented tie
behaviour of Python `round`. -/
def roundHalfEven (x : ℚ) : ℤ :=
  if x - ⌊x⌋ < 1 / 2 then ⌊x⌋
  else if 1 / 2 < x - ⌊x⌋ then ⌊x⌋ + 1
  else if 2 ∣ ⌊x⌋ then ⌊x⌋ else ⌊x⌋ + 1

/-- Python `round(x, 2)` on an exact rational. -/
def round2 (x : ℚ) : ℚ := (roundHalfEven (x * 100) : ℚ) / 100

/-- The per-channel rate expression of the main loop,
`round((count * 8 / elapsed) / 1024, 2)`: Python `/` raises
`ZeroDivisionError` when `elapsed == 0`, so that case is `none`. -/
def speed_field (count : ℕ) (elapsed : ℚ) : Option ℚ :=
  if elapsed = 0 then none
  else some (round2 ((count * 8 / elapsed) / 1024))

/-- Total-function form of the rate expression, used for points whose
window has a nonzero elapsed time. -/
def speedVal (count : ℕ) (elapsed : ℚ) : ℚ :=
  round2 ((count * 8 / elapsed) / 1024)

/-- Outcome of the step/channel-count check in `build_configuration`:
whether the warning fired, and whether the configuration was accepted
(the source always falls through to `return args`). -/
structure StepCheck where
  warned : Bool
  accepted : Bool
deriving DecidableEq

/-- The `build_configuration` guard: `if args.step / len(frequencies) < 1`
only logs a warning; the configuration is returned unchanged either way. -/
def build_configuration_check (step : ℤ) (nfreq : ℕ) : StepCheck :=
  ⟨decide ((step : ℚ) / nfreq < 1), true⟩

/-- The per-channel poll budget of `main`,
`timeout = config.step / frequencies_count` (Python float division). -/
def channel_timeout (step : ℤ) (nfreq : ℕ) : ℚ := (step : ℚ) / nfreq

/-- The seven-entry `dtv_property` batch built by `tune` (lines 352-377),
as ordered `(cmd, u.data)` pairs.  Every field is a `c_uint32`, and ctypes
does no overflow checking, so stored values are reduced mod `2 ^ 32`;
`prop[6]` (`DTV_TUNE`) leaves `u.data` at its zero initialisation. -/
def tune_props (t : Tunable) : List (ℕ × ℕ) :=
  [(DTV_DELIVERY_SYSTEM, SYS_DVBC_ANNEX_AC),
   (DTV_MODULATION, t.modulation % 2 ^ 32),
   (DTV_SYMBOL_RATE, 6952000),
   (DTV_INVERSION, INVERSION_OFF),
   (DTV_INNER_FEC, FEC_AUTO),
   (DTV_FREQUENCY, ((t.frequency * 1000000) % 2 ^ 32).toNat),
   (DTV_TUNE, 0)]

/-- `dtv_props.num = 7`: the batch is submitted as one
`FE_SET_PROPERTY` ioctl carrying seven properties. -/
def dtv_props_num : ℕ := 7

/-- Observable actions taken by `tune` after building the batch. -/
inductive TuneAction where
  | sleepLock (seconds : ℤ)
  | queryStatus
deriving DecidableEq

/-- Hardware responses for one `tune` call: whether `FE_SET_PROPERTY`
returned 0, and the `FE_READ_STATUS` result (`none` = the ioctl failed,
`some st` = the returned status word). -/
structure FrontendEnv where
  setPropOk : Bool
  readStatus : Option ℕ
deriving DecidableEq

/-- Control flow of `tune` (lines 378-395): on batch rejection return -1
at once; on success sleep `locktime`, read the status once, and return 0
exactly when the read worked and bit `0x10` is set.  The trace records the
sleep and status query in order. -/
def tune (env : FrontendEnv) (locktime : ℤ) : ℤ × List TuneAction :=
  if env.setPropOk then
    let acts := [TuneAction.sleepLock locktime, TuneAction.queryStatus]
    match env.readStatus with
    | some st => if st &&& 0x10 = 0 then (-1, acts) else (0, acts)
    | none => (-1, acts)
  else (-1, [])

/-- Number of status queries in a tune trace. -/
def queryCount (acts : List TuneAction) : ℕ :=
  acts.countP (fun a => a = TuneAction.queryStatus)

/-- Number of lock-settle sleeps in a tune trace. -/
def sleepCount (acts : List TuneAction) : ℕ :=
  acts.countP (fun a => match a with | TuneAction.sleepLock _ => true | _ => false)

/-- One `dvr_poller.poll` call as the environment resolves it: the wall
time the call blocked, and the number of bytes the subsequent
`dvrfd.read` returned (0 models a poll that returned no read event). -/
structure PollOutcome where
  duration : ℚ
  bytes : ℕ
deriving DecidableEq

/-- State of the metering loop, clocks measured from `start_time`:
`clock` is `timeit.default_timer() - start_time`; `endTime` is
`end_time - start_time` (advanced only by reads); `count` the byte
counter; `polls` the timeout argument (ms) passed to each `poll` call;
`data` the process-scoped `data` variable (`none` = never assigned, so
`len(data)` would raise `UnboundLocalError`). -/
structure MeterSt where
  clock : ℚ
  endTime : ℚ
  count : ℕ
  polls : List ℚ
  data : Option ℕ
deriving DecidableEq

/-- Meter state at `start_time = end_time = now`, inheriting the
process-scoped `data` variable from earlier channels. -/
def meterInit (d : Option ℕ) : MeterSt := ⟨0, 0, 0, [], d⟩

/-- The metering loop of `main` (lines 500-520): while
`end_time - start_time < timeout`, call `poll(timeout * 1000)` — the
full budget each time — then read and advance `end_time` only when data
arrived.  The outcome list is the finite schedule of poll returns being
observed; the loop stops early when the `while` condition fails. -/
def meterRun (timeout : ℚ) : List PollOutcome → MeterSt → MeterSt
  | [], st => st
  | o :: os, st =>
    if st.endTime < timeout then
      meterRun timeout os
        ⟨st.clock + o.duration,
         if 0 < o.bytes then st.clock + o.duration else st.endTime,
         st.count + o.bytes,
         st.polls ++ [timeout * 1000],
         if 0 < o.bytes then some o.bytes else st.data⟩
    else st

/-- `len(data)` as evaluated by the per-channel debug log line (lines
547-555): the current value of the process-scoped `data` variable. -/
def debugReportBytes (st : MeterSt) : Option ℕ := st.data

/-- The modulation tag of the influx point: `"qam256"` or `"qam64"`. -/
def m_type (m : ℕ) : Chars :=
  if m = QAM_256 then ['q', 'a', 'm', '2', '5', '6'] else ['q', 'a', 'm', '6', '4']

/-- One influx point as the main loop appends it (lines 531-544), reduced
to the fields the claims speak about. -/
structure MetricPoint where
  frequency : ℤ
  mtype : Chars
  speed : ℚ
deriving DecidableEq

/-- Per-channel resolution of one cycle: the tunable, whether `tune`,
`start_demuxer` and `stop_demuxer` succeed, and the meter window's byte
count and (nonzero) elapsed time. -/
structure ChannelRun where
  tunable : Tunable
  tuneOk : Bool
  startOk : Bool
  stopOk : Bool
  count : ℕ
  elapsed : ℚ
deriving DecidableEq

/-- All three device operations of a channel succeed. -/
def allOk (c : ChannelRun) : Bool := c.tuneOk && c.startOk && c.stopOk

/-- The point appended for a fully completed channel. -/
def mkPoint (c : ChannelRun) : MetricPoint :=
  ⟨c.tunable.frequency, m_type c.tunable.modulation, speedVal c.count c.elapsed⟩

/-- The per-cycle channel loop of `main` (lines 492-556): `num` counts
channels entered; a `tune` or `start_demuxer` failure breaks out before
metering, a `stop_demuxer` failure breaks out after metering but before
the point is appended.  Returns the influx batch and the number of
channels attempted. -/
def runCycle : List ChannelRun → List MetricPoint × ℕ
  | [] => ([], 0)
  | c :: cs =>
    if !c.tuneOk || !c.startOk then ([], 1)
    else if !c.stopOk then ([], 1)
    else
      let r := runCycle cs
      (mkPoint c :: r.1, r.2 + 1)

/-- `timedelta.seconds` of a nonnegative duration given in microseconds:
the whole-seconds component within the day (microseconds truncated,
days discarded). -/
def tdSeconds (us : ℕ) : ℕ := us / 1000000 % 86400

/-- `sleeptime = config.interval - total_time_diff.seconds` (line 577). -/
def sleeptime (interval : ℤ) (us : ℕ) : ℤ := interval - (tdSeconds us : ℤ)

/-- The inter-cycle sleep (lines 577-587): sleep `sleeptime` seconds when
positive, otherwise start the next cycle immediately (`none`). -/
def interCycleSleep (interval : ℤ) (us : ℕ) : Option ℤ :=
  if 0 < sleeptime interval us then some (sleeptime interval us) else none

/-- A concrete four-channel cycle whose second channel fails to tune,
mirroring the spec's "tuning failure on channel 2 of 4" scenario. -/
def sampleCycle : List ChannelRun :=
  [⟨⟨114, QAM_256⟩, true, true, true, 940, 5⟩,
   ⟨⟨120, QAM_64⟩, false, true, true, 0, 5⟩,
   ⟨⟨130, QAM_256⟩, true, true, true, 0, 5⟩,
   ⟨⟨140, QAM_256⟩, true, true, true, 0, 5⟩]

section ParsingLemmas

/-- Evaluating a concatenation of digit strings: the left part feeds its
value into the accumulator of the right part. -/
theorem digitsValAux_append (xs ys : Chars) :
    ∀ acc, digitsValAux (xs ++ ys) acc =
      match digitsValAux xs acc with
      | some a => digitsValAux ys a
      | none => none := by
  induction xs with
  | nil => intro acc; rfl
  | cons c cs ih =>
    intro acc
    rw [List.cons_append]
    cases h : digitVal c with
    | some d => simp only [digitsValAux, h]; exact ih (acc * 10 + d)
    | none => simp only [digitsValAux, h]

/-- A digit below 10 rendered as a character evaluates back to itself. -/
theorem digitVal_digitChar (d : ℕ) (h : d < 10) :
    digitVal (Char.ofNat (48 + d)) = some d := by
  interval_cases d <;> decide

/-- Every character produced by `natCharsAux` is a decimal digit char. -/
theorem natCharsAux_mem (fuel : ℕ) :
    ∀ n c, c ∈ natCharsAux fuel n → ∃ d, d < 10 ∧ c = Char.ofNat (48 + d) := by
  induction fuel with
  | zero => intro n c hc; simp [natCharsAux] at hc
  | succ fuel ih =>
    intro n c hc
    unfold natCharsAux at hc
    by_cases hn : n = 0
    · simp [hn] at hc
    · rw [if_neg hn] at hc
      rcases List.mem_append.mp hc with h1 | h2
      · exact ih (n / 10) c h1
      · refine ⟨n % 10, Nat.mod_lt n (by norm_num), ?_⟩
        simpa using h2

/-- `natCharsAux` renders the decimal digits of `n`: evaluating them
appends `n` to the accumulated prefix. -/
theorem natCharsAux_val (fuel : ℕ) :
    ∀ n acc, n ≤ fuel →
      digitsValAux (natCharsAux fuel n) acc =
        some (acc * 10 ^ (natCharsAux fuel n).length + n) := by
  induction fuel with
  | zero =>
    intro n acc hn
    interval_cases n
    simp [natCharsAux, digitsValAux]
  | succ fuel ih =>
    intro n acc hn
    by_cases h0 : n = 0
    · simp [natCharsAux, h0, digitsValAux]
    · have hrec : n / 10 ≤ fuel := by
        have := Nat.div_lt_self (Nat.pos_of_ne_zero h0) (by norm_num : 1 < 10)
        omega
      unfold natCharsAux
      rw [if_neg h0, digitsValAux_append]
      rw [ih (n / 10) acc hrec]
      show digitsValAux [Char.ofNat (48 + n % 10)] _ = _
      unfold digitsValAux
      rw [digitVal_digitChar (n % 10) (Nat.mod_lt n (by norm_num))]
      unfold digitsValAux
      congr 1
      rw [List.length_append, List.length_singleton, pow_succ]
      ring_nf
      omega

/-- `str(n)` is never the empty string. -/
theorem natChars_ne_nil (n : ℕ) : natChars n ≠ [] := by
  unfold natChars
  by_cases h0 : n = 0
  · simp [h0]
  · rw [if_neg h0]
    unfold natCharsAux
    rw [if_neg h0]
    simp

/-- Every character of `str(n)` is a decimal digit character. -/
theorem natChars_mem (n : ℕ) (c : Char) (hc : c ∈ natChars n) :
    ∃ d, d < 10 ∧ c = Char.ofNat (48 + d) := by
  unfold natChars at hc
  by_cases h0 : n = 0
  · rw [if_pos h0] at hc
    refine ⟨0, by norm_num, ?_⟩
    simpa using hc
  · rw [if_neg h0] at hc
    exact natCharsAux_mem (n + 1) n c hc

/-- Evaluating the digit string of `n` recovers `n`. -/
theorem digitsValAux_natChars (n : ℕ) : digitsValAux (natChars n) 0 = some n := by
  unfold natChars
  by_cases h0 : n = 0
  · simp [h0, digitsValAux, digitVal]
  · rw [if_neg h0]
    rw [natCharsAux_val (n + 1) n 0 (by omega)]
    simp

/-- Digit characters are not syntax characters of the channel-spec form. -/
theorem digitChar_not_special (d : ℕ) (h : d < 10) :
    Char.ofNat (48 + d) ≠ ',' ∧ Char.ofNat (48 + d) ≠ ':' ∧
    Char.ofNat (48 + d) ≠ '-' ∧ Char.ofNat (48 + d) ≠ '+' := by
  interval_cases d <;> decide

/-- `str(z)` is never the empty string. -/
theorem intChars_ne_nil (z : ℤ) : intChars z ≠ [] := by
  cases z with
  | ofNat n => exact natChars_ne_nil n
  | negSucc m => simp [intChars]

/-- `str(z)` contains neither a comma nor a colon. -/
theorem intChars_not_special (z : ℤ) (c : Char) (hc : c ∈ intChars z) :
    c ≠ ',' ∧ c ≠ ':' := by
  cases z with
  | ofNat n =>
    obtain ⟨d, hd, rfl⟩ := natChars_mem n c hc
    exact ⟨(digitChar_not_special d hd).1, (digitChar_not_special d hd).2.1⟩
  | negSucc m =>
    rcases List.mem_cons.mp hc with rfl | hmem
    · exact ⟨by decide, by decide⟩
    · obtain ⟨d, hd, rfl⟩ := natChars_mem (m + 1) c hmem
      exact ⟨(digitChar_not_special d hd).1, (digitChar_not_special d hd).2.1⟩

/-- `int(str(n)) = n` for a natural number. -/
theorem pyInt_natChars (n : ℕ) : pyInt (natChars n) = some (n : ℤ) := by
  cases hs : natChars n with
  | nil => exact absurd hs (natChars_ne_nil n)
  | cons c rest =>
    have hcmem : c ∈ natChars n := by rw [hs]; exact List.mem_cons_self _ _
    obtain ⟨d, hd, rfl⟩ := natChars_mem n c hcmem
    have hne := digitChar_not_special d hd
    simp only [pyInt]
    rw [if_neg hne.2.2.1, if_neg hne.2.2.2, ← hs, digitsValAux_natChars]
    rfl

/-- `int(str(z)) = z` for any integer. -/
theorem pyInt_intChars (z : ℤ) : pyInt (intChars z) = some z := by
  cases z with
  | ofNat n => exact pyInt_natChars n
  | negSucc m =>
    show pyInt ('-' :: natChars (m + 1)) = _
    simp only [pyInt]
    simp [natChars_ne_nil (m + 1), digitsValAux_natChars, Int.negSucc_eq]

/-- `pyFindAux` misses a character that does not occur. -/
theorem pyFindAux_not_mem (sep : Char) (s : Chars) (h : sep ∉ s) :
    pyFindAux sep s = none := by
  induction s with
  | nil => rfl
  | cons c cs ih =>
    unfold pyFindAux
    rw [if_neg (by rintro rfl; exact h (List.mem_cons_self _ _)),
      ih (fun hm => h (List.mem_cons_of_mem _ hm))]
    rfl

/-- `pyFindAux` finds the first planted occurrence after a clean prefix. -/
theorem pyFindAux_append (sep : Char) (xs ys : Chars) (h : sep ∉ xs) :
    pyFindAux sep (xs ++ sep :: ys) = some xs.length := by
  induction xs with
  | nil => simp [pyFindAux]
  | cons c cs ih =>
    rw [List.cons_append]
    unfold pyFindAux
    rw [if_neg (by rintro rfl; exact h (List.mem_cons_self _ _)),
      ih (fun hm => h (List.mem_cons_of_mem _ hm))]
    simp

/-- Splitting a string with no separator occurrence is the identity. -/
theorem pySplit_not_mem (sep : Char) (s : Chars) (h : sep ∉ s) :
    pySplit sep s = [s] := by
  induction s with
  | nil => rfl
  | cons c cs ih =>
    unfold pySplit
    rw [if_neg (by rintro rfl; exact h (List.mem_cons_self _ _)),
      ih (fun hm => h (List.mem_cons_of_mem _ hm))]

/-- Splitting peels off a clean prefix at its planted separator. -/
theorem pySplit_append (sep : Char) (xs ys : Chars) (h : sep ∉ xs) :
    pySplit sep (xs ++ sep :: ys) = xs :: pySplit sep ys := by
  induction xs with
  | nil => simp [pySplit]
  | cons c cs ih =>
    rw [List.cons_append]
    show (if c = sep then [] :: pySplit sep (cs ++ sep :: ys)
      else match pySplit sep (cs ++ sep :: ys) with
        | [] => [[c]]
        | p :: ps => (c :: p) :: ps) = _
    rw [if_neg (by rintro rfl; exact h (List.mem_cons_self _ _)),
      ih (fun hm => h (List.mem_cons_of_mem _ hm))]

/-- Re-parsing the spec form of one resolved pair yields that pair. -/
theorem parseItem_serializeItem (t : Tunable)
    (h : t.modulation = QAM_64 ∨ t.modulation = QAM_256) :
    parseItem (serializeItem t) = some t := by
  have hns : (':' : Char) ∉ intChars t.frequency := by
    intro hm
    exact (intChars_not_special t.frequency ':' hm).2 rfl
  have hfind : pyFind ':' (serializeItem t) = ((intChars t.frequency).length : ℤ) := by
    unfold serializeItem pyFind
    rw [pyFindAux_append ':' _ _ hns]
  have hlen : 0 < (intChars t.frequency).length :=
    List.length_pos.mpr (intChars_ne_nil t.frequency)
  have hsplit : pySplit ':' (serializeItem t) =
      [intChars t.frequency,
       if t.modulation = QAM_64 then ['6', '4'] else ['2', '5', '6']] := by
    unfold serializeItem
    rw [pySplit_append ':' _ _ hns]
    congr 1
    by_cases hm : t.modulation = QAM_64 <;>
      simp [hm, pySplit_not_mem]
  unfold parseItem
  rw [hfind, if_pos (by exact_mod_cast hlen), hsplit]
  show parseFreqMod (intChars t.frequency) _ = some t
  unfold parseFreqMod
  rw [pyInt_intChars]
  rcases h with hm | hm <;> cases t <;> simp_all

/-- The spec form of one resolved pair contains no comma. -/
theorem serializeItem_no_comma (t : Tunable) : (',' : Char) ∉ serializeItem t := by
  unfold serializeItem
  intro hm
  rcases List.mem_append.mp hm with h1 | h2
  · exact (intChars_not_special t.frequency ',' h1).1 rfl
  · rcases List.mem_cons.mp h2 with hc | hmem
    · exact absurd hc (by decide)
    · by_cases hq : t.modulation = QAM_64 <;> simp [hq] at hmem

/-- Splitting the serialized list on commas recovers the item strings. -/
theorem pySplit_serializeList (l : List Tunable) (hne : l ≠ []) :
    pySplit ',' (serializeList l) = l.map serializeItem := by
  induction l with
  | nil => exact absurd rfl hne
  | cons t rest ih =>
    cases rest with
    | nil =>
      show pySplit ',' (serializeItem t) = [serializeItem t]
      exact pySplit_not_mem ',' _ (serializeItem_no_comma t)
    | cons t2 rest2 =>
      show pySplit ',' (serializeItem t ++ ',' :: serializeList (t2 :: rest2)) = _
      rw [pySplit_append ',' _ _ (serializeItem_no_comma t), ih (by simp)]
      rfl

/-- Re-parsing the serialized items, item by item. -/
theorem parseItems_map_serialize (l : List Tunable)
    (hmod : ∀ t ∈ l, t.modulation = QAM_64 ∨ t.modulation = QAM_256) :
    parseItems (l.map serializeItem) = some l := by
  induction l with
  | nil => rfl
  | cons t rest ih =>
    have ht := hmod t (List.mem_cons_self _ _)
    show parseItems (serializeItem t :: rest.map serializeItem) = _
    unfold parseItems
    rw [parseItem_serializeItem t ht,
      ih (fun t2 h2 => hmod t2 (List.mem_cons_of_mem _ h2))]

/-- C8: for every resolved channel list (necessarily nonempty, with each
modulation one of the two QAM constants), serializing it back to the
textual spec form and running `frequency_list` on the result yields the
same list: parsing is idempotent on resolved lists. -/
theorem parse_serialize_roundtrip (l : List Tunable) (hne : l ≠ [])
    (hmod : ∀ t ∈ l, t.modulation = QAM_64 ∨ t.modulation = QAM_256) :
    frequency_list (serializeList l) = some l := by
  unfold frequency_list
  rw [pySplit_serializeList l hne]
  exact parseItems_map_serialize l hmod

/-- C8 witness: the list resolved from `"114:256,120:64"` survives a
serialize/re-parse round trip. -/
theorem parse_serialize_roundtrip_witness :
    frequency_list (serializeList [⟨114, QAM_256⟩, ⟨120, QAM_64⟩]) =
      some [⟨114, QAM_256⟩, ⟨120, QAM_64⟩] :=
  parse_serialize_roundtrip [⟨114, QAM_256⟩, ⟨120, QAM_64⟩] (by simp) (by decide)

/-- C10: a channel-spec item with no `":"` at a positive index — a bare
frequency, or an item whose `":"` sits at index 0 — is resolved with the
default modulation `"256"`: whenever it resolves at all, the `Tunable` is
the parsed integer paired with `QAM_256`. -/
theorem parseItem_no_colon_default (item : Chars) (h : ¬ 0 < pyFind ':' item) :
    parseItem item = (pyInt item).map (fun f => ⟨f, QAM_256⟩) := by
  unfold parseItem
  rw [if_neg h]
  unfold parseFreqMod
  cases hp : pyInt item <;> simp [hp]

/-- C10 witness: the bare item `"114"` resolves to frequency 114 with the
default modulation `QAM_256`. -/
theorem parseItem_no_colon_default_witness :
    parseItem ['1', '1', '4'] = some ⟨114, QAM_256⟩ := by
  rw [parseItem_no_colon_default ['1', '1', '4'] (by decide)]
  decide

end ParsingLemmas

section RateLemmas

/-- C1: the per-channel rate field is `round((count*8/elapsed)/1024, 2)`
computed from the actual elapsed time — at `count = 940`, `elapsed = 5`
it is 1.47 kbit/s as in the spec's end-to-end scenario — but at
`elapsed = 0` the computation is undefined (`none`, a Python
`ZeroDivisionError`), not a defined sentinel value. -/
theorem speed_field_zero_division :
    speed_field 940 0 = none ∧ speed_field 940 5 = some (147 / 100) := by
  constructor
  · norm_num [speed_field]
  · norm_num [speed_field, round2, roundHalfEven]

end RateLemmas

section ConfigLemmas

/-- C2 counterexample: with `step = 1` and two channels the per-channel
budget is 1/2 second, yet `build_configuration` still accepts the
configuration (it only logs a warning), so the core does run with a
sub-second budget. -/
theorem subsecond_budget_not_rejected :
    channel_timeout 1 2 < 1 ∧ (build_configuration_check 1 2).accepted = true := by
  constructor
  · norm_num [channel_timeout]
  · rfl

/-- C2 amended: the per-channel budget is exactly `step / channel_count`
(at both the `build_configuration` check and the `main` poll-timeout
computation), and a combination with a sub-second budget only triggers
the warning — the configuration is accepted and the core runs anyway. -/
theorem budget_formula_warn_only (step : ℤ) (nfreq : ℕ) (_hn : 0 < nfreq) :
    channel_timeout step nfreq = (step : ℚ) / nfreq ∧
    (build_configuration_check step nfreq).accepted = true ∧
    ((build_configuration_check step nfreq).warned = true ↔
      channel_timeout step nfreq < 1) := by
  refine ⟨rfl, rfl, ?_⟩
  simp [build_configuration_check, channel_timeout]

/-- C2 amended witness: a 60-second step over 4 channels gives a
15-second budget, is accepted, and is not warned about. -/
theorem budget_formula_warn_only_witness :
    (build_configuration_check 60 4).accepted = true ∧
    ((build_configuration_check 60 4).warned = true ↔
      channel_timeout 60 4 < 1) :=
  (budget_formula_warn_only 60 4 (by norm_num)).2

end ConfigLemmas

section TuneLemmas

/-- C5: for a tunable whose fields fit in the `c_uint32` record, `tune`
builds exactly one batch of seven commands, in the order delivery system
DVB-C annex A/C, modulation, symbol rate 6952000, inversion off, inner
FEC auto, frequency `tunable.frequency * 1000000`, tune-commit, and the
batch length equals the submitted `dtv_props.num`. -/
theorem tune_props_batch (t : Tunable) (h0 : 0 ≤ t.frequency)
    (h1 : t.frequency * 1000000 < 2 ^ 32) (h2 : t.modulation < 2 ^ 32) :
    tune_props t =
      [(DTV_DELIVERY_SYSTEM, SYS_DVBC_ANNEX_AC),
       (DTV_MODULATION, t.modulation),
       (DTV_SYMBOL_RATE, 6952000),
       (DTV_INVERSION, INVERSION_OFF),
       (DTV_INNER_FEC, FEC_AUTO),
       (DTV_FREQUENCY, (t.frequency * 1000000).toNat),
       (DTV_TUNE, 0)] ∧
    (tune_props t).length = dtv_props_num := by
  unfold tune_props
  rw [Int.emod_eq_of_lt (by positivity) h1, Nat.mod_eq_of_lt h2]
  exact ⟨rfl, rfl⟩

/-- C5 witness: the batch for `114:256`. -/
theorem tune_props_batch_witness :
    tune_props ⟨114, QAM_256⟩ =
      [(DTV_DELIVERY_SYSTEM, SYS_DVBC_ANNEX_AC),
       (DTV_MODULATION, QAM_256),
       (DTV_SYMBOL_RATE, 6952000),
       (DTV_INVERSION, INVERSION_OFF),
       (DTV_INNER_FEC, FEC_AUTO),
       (DTV_FREQUENCY, 114000000),
       (DTV_TUNE, 0)] ∧
    (tune_props ⟨114, QAM_256⟩).length = dtv_props_num := by
  have h := tune_props_batch ⟨114, QAM_256⟩ (by norm_num) (by norm_num) (by norm_num [QAM_256])
  simpa using h

/-- C6: if the command batch is rejected, `tune` returns the error at
once, with no sleep and no lock-status query; if the batch is accepted,
its trace is exactly one `locktime` sleep followed by exactly one status
query (no retries), and it succeeds precisely when the query returned a
status with bit `0x10` set. -/
theorem tune_protocol (env : FrontendEnv) (lt : ℤ) :
    (env.setPropOk = false → tune env lt = (-1, [])) ∧
    (env.setPropOk = true →
      (tune env lt).2 = [TuneAction.sleepLock lt, TuneAction.queryStatus] ∧
      queryCount (tune env lt).2 = 1 ∧
      sleepCount (tune env lt).2 = 1 ∧
      ((tune env lt).1 = 0 ↔
        ∃ st, env.readStatus = some st ∧ st &&& 0x10 ≠ 0)) := by
  obtain ⟨sp, rs⟩ := env
  constructor
  · rintro rfl
    rfl
  · rintro rfl
    cases rs with
    | none => simp [tune, queryCount, sleepCount]
    | some st =>
      by_cases hb : st &&& 0x10 = 0 <;>
        simp [tune, queryCount, sleepCount, hb]

/-- C6 witness: a rejected batch returns immediately with an empty trace;
an accepted batch with lock bit set (status `0x1F`) succeeds. -/
theorem tune_protocol_witness :
    tune ⟨false, none⟩ 1 = (-1, []) ∧ (tune ⟨true, some 31⟩ 1).1 = 0 :=
  ⟨(tune_protocol ⟨false, none⟩ 1).1 rfl,
   (((tune_protocol ⟨true, some 31⟩ 1).2 rfl).2.2.2).mpr ⟨31, rfl, by decide⟩⟩

end TuneLemmas

section MeterLemmas

/-- Every timeout recorded by the metering loop is the full per-channel
budget (in milliseconds), never a remaining budget. -/
theorem meterRun_polls_aux (timeout : ℚ) (sched : List PollOutcome) :
    ∀ st : MeterSt, (∀ x ∈ st.polls, x = timeout * 1000) →
      ∀ x ∈ (meterRun timeout sched st).polls, x = timeout * 1000 := by
  induction sched with
  | nil => intro st h; exact h
  | cons o os ih =>
    intro st h
    unfold meterRun
    by_cases hc : st.endTime < timeout
    · rw [if_pos hc]
      refine ih _ ?_
      intro x hx
      rcases List.mem_append.mp hx with h1 | h2
      · exact h x h1
      · simpa using h2
    · rw [if_neg hc]
      exact h

/-- On an all-silent schedule the read-marker never advances, so the
`while` condition never fails: every scheduled poll is executed. -/
theorem meterRun_silent_aux (timeout : ℚ) (sched : List PollOutcome) :
    ∀ st : MeterSt, (∀ o ∈ sched, o.bytes = 0) → st.endTime < timeout →
      (meterRun timeout sched st).polls.length = st.polls.length + sched.length := by
  induction sched with
  | nil => intro st _ _; rfl
  | cons o os ih =>
    intro st hz hc
    have hob : o.bytes = 0 := hz o (List.mem_cons_self _ _)
    unfold meterRun
    rw [if_pos hc]
    have hnb : ¬ 0 < o.bytes := by omega
    rw [ih _ (fun o2 h2 => hz o2 (List.mem_cons_of_mem _ h2)) (by simpa [hnb] using hc)]
    simp
    omega

/-- C3 counterexample: budget 5 s; the first poll returns data after 1 s,
the second poll is silent and blocks for its whole timeout.  Both polls
are issued with the full-budget timeout 5000 ms — the second one although
only 4 s of budget remain — and the measured elapsed time reaches 6 s,
one full second beyond the budget (with the loop still not finished). -/
theorem meter_remaining_budget_cex :
    (meterRun 5 [⟨1, 188⟩, ⟨5, 0⟩] (meterInit none)).polls = [5 * 1000, 5 * 1000] ∧
    (5 : ℚ) * 1000 ≠ (5 - 1) * 1000 ∧
    (meterRun 5 [⟨1, 188⟩, ⟨5, 0⟩] (meterInit none)).clock = 6 ∧
    (5 : ℚ) < 6 := by
  refine ⟨?_, by norm_num, ?_, by norm_num⟩ <;>
    norm_num [meterRun, meterInit]

/-- C3 amended: every wait on the poller uses the full per-channel budget
(`timeout * 1000` ms) as its timeout, not the remaining budget; and since
the loop's condition tests only the last-read marker, a silent channel
executes every poll of the schedule, so the measured elapsed time can
exceed the budget by a full poll-timeout (unboundedly on silence), not
just by one poll granularity. -/
theorem meter_poll_full_budget (timeout : ℚ) (sched : List PollOutcome)
    (d : Option ℕ) (hpos : 0 < timeout) :
    (∀ x ∈ (meterRun timeout sched (meterInit d)).polls, x = timeout * 1000) ∧
    ((∀ o ∈ sched, o.bytes = 0) →
      (meterRun timeout sched (meterInit d)).polls.length = sched.length) := by
  constructor
  · exact meterRun_polls_aux timeout sched (meterInit d) (by simp [meterInit])
  · intro hz
    have h := meterRun_silent_aux timeout sched (meterInit d) hz (by simpa [meterInit] using hpos)
    simpa [meterInit] using h

/-- C3 amended witness: a three-poll silent schedule with budget 5 s
records three full-budget timeouts. -/
theorem meter_poll_full_budget_witness :
    (∀ x ∈ (meterRun 5 [⟨5, 0⟩, ⟨5, 0⟩, ⟨5, 0⟩] (meterInit none)).polls, x = 5 * 1000) ∧
    (meterRun 5 [⟨5, 0⟩, ⟨5, 0⟩, ⟨5, 0⟩] (meterInit none)).polls.length = 3 :=
  ⟨(meter_poll_full_budget 5 [⟨5, 0⟩, ⟨5, 0⟩, ⟨5, 0⟩] none (by norm_num)).1,
   (meter_poll_full_budget 5 [⟨5, 0⟩, ⟨5, 0⟩, ⟨5, 0⟩] none (by norm_num)).2 (by decide)⟩

/-- C9: after a meter window in which every poll returned zero bytes, the
debug line's `len(data)` still refers to the process-scoped `data`
variable left by a possibly-previous channel: the report equals whatever
`data` held before the window (stale data), and is `none` — an
`UnboundLocalError`, not a zero default — when no read ever happened in
the process. -/
theorem debug_len_stale (timeout : ℚ) (sched : List PollOutcome) :
    ∀ st : MeterSt, (∀ o ∈ sched, o.bytes = 0) →
      debugReportBytes (meterRun timeout sched st) = st.data := by
  induction sched with
  | nil => intro st _; rfl
  | cons o os ih =>
    intro st hz
    have hob : o.bytes = 0 := hz o (List.mem_cons_self _ _)
    unfold meterRun
    by_cases hc : st.endTime < timeout
    · rw [if_pos hc]
      have hnb : ¬ 0 < o.bytes := by omega
      rw [ih _ (fun o2 h2 => hz o2 (List.mem_cons_of_mem _ h2))]
      simp [hnb]
    · rw [if_neg hc]
      rfl

/-- C9 witness: a silent 5-second window after a previous channel read a
188-byte buffer reports the stale 188, and a silent first window of the
process reports the unbound variable. -/
theorem debug_len_stale_witness :
    debugReportBytes (meterRun 5 [⟨5, 0⟩] (meterInit (some 188))) = some 188 ∧
    debugReportBytes (meterRun 5 [⟨5, 0⟩] (meterInit none)) = none :=
  ⟨(debug_len_stale 5 [⟨5, 0⟩] (meterInit (some 188)) (by decide)).trans rfl,
   (debug_len_stale 5 [⟨5, 0⟩] (meterInit none) (by decide)).trans rfl⟩

end MeterLemmas

section CycleLemmas

/-- C4: if the first `i` channels of a cycle complete all three device
operations and channel `i` fails at tuning, filter start or filter stop,
then the cycle stops there: exactly the channels up to and including `i`
are attempted (`i + 1` of them, so channels `i+1 … n` are never touched)
and the metric batch is exactly the points of the `i` channels completed
before the failure. -/
theorem cycle_abort_on_failure (cs : List ChannelRun) (i : ℕ) (hi : i < cs.length)
    (hok : ∀ c ∈ cs.take i, allOk c = true)
    (hfail : allOk (cs.get ⟨i, hi⟩) = false) :
    runCycle cs = ((cs.take i).map mkPoint, i + 1) := by
  induction cs generalizing i with
  | nil => simp at hi
  | cons c rest ih =>
    cases i with
    | zero =>
      have hfc : allOk c = false := hfail
      unfold allOk at hfc
      unfold runCycle
      cases htu : c.tuneOk <;> cases hst : c.startOk <;> cases hsp : c.stopOk <;>
        simp_all
    | succ i2 =>
      have hc : allOk c = true := hok c (by simp)
      unfold allOk at hc
      have htu : c.tuneOk = true := by simp_all
      have hst : c.startOk = true := by simp_all
      have hsp : c.stopOk = true := by simp_all
      have hi2 : i2 < rest.length := by simpa using hi
      have step : runCycle rest = ((rest.take i2).map mkPoint, i2 + 1) := by
        refine ih i2 hi2 ?_ ?_
        · intro c2 h2
          exact hok c2 (by simpa using List.mem_cons_of_mem c h2)
        · exact hfail
      unfold runCycle
      rw [htu, hst, hsp]
      simp only [Bool.not_true, Bool.false_or]
      rw [step]
      simp [List.take_succ_cons]

/-- C4 witness: in the four-channel sample cycle whose second channel
fails to tune, exactly two channels are attempted and the batch holds
exactly the first channel's point. -/
theorem cycle_abort_on_failure_witness :
    runCycle sampleCycle = ((sampleCycle.take 1).map mkPoint, 2) :=
  cycle_abort_on_failure sampleCycle 1 (by decide) (by decide) (by decide)

end CycleLemmas

section SleepLemmas

/-- C7 counterexample: the code computes the sleep from
`timedelta.seconds`, the whole-seconds component modulo one day.  A cycle
of exactly 86400 s (a day) is far above the 300 s interval, yet the code
sleeps the full 300 s instead of starting immediately; and for a cycle of
299.5 s the code sleeps 1 s, not the exact difference 0.5 s. -/
theorem sleep_cadence_cex :
    (300 : ℕ) ≤ 86400000000 / 1000000 ∧
    interCycleSleep 300 86400000000 = some 300 ∧
    ((299500000 : ℚ) / 1000000 < 300 ∧
      interCycleSleep 300 299500000 = some 1 ∧
      (1 : ℚ) ≠ 300 - (299500000 : ℚ) / 1000000) := by
  refine ⟨by norm_num, ?_, by norm_num, ?_, by norm_num⟩ <;>
    norm_num [interCycleSleep, sleeptime, tdSeconds]

/-- C7 amended: for cycles shorter than one day the inter-cycle sleep is
computed from the duration truncated to whole seconds: if
`⌊duration⌋ < interval` the sleep is exactly `interval - ⌊duration⌋`,
otherwise no sleep occurs and the next cycle starts immediately.
(Durations of a day or more wrap modulo 24 h, see the counterexample.) -/
theorem sleep_under_one_day (interval : ℤ) (us : ℕ)
    (hd : us / 1000000 < 86400) :
    (((us / 1000000 : ℕ) : ℤ) < interval →
      interCycleSleep interval us = some (interval - ((us / 1000000 : ℕ) : ℤ))) ∧
    (interval ≤ ((us / 1000000 : ℕ) : ℤ) → interCycleSleep interval us = none) := by
  have hts : tdSeconds us = us / 1000000 := Nat.mod_eq_of_lt hd
  unfold interCycleSleep sleeptime
  rw [hts]
  constructor
  · intro h
    rw [if_pos (by omega)]
  · intro h
    rw [if_neg (by omega)]

/-- C7 amended witness: a 10-second cycle with a 300-second interval
sleeps 290 s; the same cycle with a 5-second interval does not sleep. -/
theorem sleep_under_one_day_witness :
    interCycleSleep 300 10000000 = some 290 ∧
    interCycleSleep 5 10000000 = none := by
  constructor
  · have h := (sleep_under_one_day 300 10000000 (by norm_num)).1 (by norm_num)
    simpa using h
  · exact (sleep_under_one_day 5 10000000 (by norm_num)).2 (by norm_num)

end SleepLemmas

end Pydtm
